import Mathlib

/-!
Verification development for the admin-excel-converter repository.

The repository ships two variants of the same conversion pipeline:
a standalone script (function names suffixed 0 here: convertData,
two column families, storeBoxSum-based validation, fixed fallback date)
and a converter module (suffix 1: convertDataJS, three column families,
F8-cell validation, current-date fallback).  Cell scalars are modelled
as strings or integers; fallible JavaScript parsing is modelled with
Option.  All definitions are direct translations of the JavaScript
source.
-/

/-- A scalar cell value: a string or a number (quantities are integral). -/
inductive Value where
  | str (s : String)
  | num (n : Int)
deriving DecidableEq, Repr

/-- JavaScript truthiness for a scalar value: empty string and 0 are falsy. -/
def truthyV : Value → Bool
  | .str s => !(s == "")
  | .num n => !(n == 0)

/-- JavaScript truthiness for a possibly absent value (null is falsy). -/
def truthyOpt : Option Value → Bool
  | none => false
  | some v => truthyV v

/-- JavaScript String() coercion of a scalar value. -/
def jsToString : Value → String
  | .str s => s
  | .num n => toString n

/-- The JavaScript whitespace class used by parseInt, trim and regex \s. -/
def jsWhitespace : List Char :=
  [' ', '\t', '\n', '\r', '\u000B', '\u000C', ' ', '﻿',
   ' ', ' ', ' ', ' ', ' ', ' ', ' ',
   ' ', ' ', ' ', ' ', ' ', ' ', ' ',
   ' ', ' ', '　']

/-- Test whether a character is JavaScript whitespace. -/
def isSpaceJS (c : Char) : Bool := jsWhitespace.contains c

/-- Numeric value of a (nonempty) list of decimal digits. -/
def digitsVal (l : List Char) : Int :=
  l.foldl (fun a c => a * 10 + Int.ofNat (c.toNat - 48)) 0

/-- Test for a hexadecimal digit. -/
def isHexDigitJS (c : Char) : Bool :=
  c.isDigit || ('a' ≤ c && c ≤ 'f') || ('A' ≤ c && c ≤ 'F')

/-- Numeric value of a hexadecimal digit. -/
def hexDigitVal (c : Char) : Int :=
  if c.isDigit then Int.ofNat (c.toNat - 48)
  else if 'a' ≤ c && c ≤ 'f' then Int.ofNat (c.toNat - 87)
  else Int.ofNat (c.toNat - 55)

/-- Value of a (nonempty) list of hexadecimal digits. -/
def hexVal (l : List Char) : Int :=
  l.foldl (fun a c => a * 16 + hexDigitVal c) 0

/-- Parse a maximal run of decimal digits; none (NaN) if there is no digit. -/
def decDigitsParse (l : List Char) : Option Int :=
  match l.takeWhile Char.isDigit with
  | [] => none
  | ds => some (digitsVal ds)

/-- Parse the digit part of JavaScript parseInt (radix auto-detection:
a 0x/0X prefix switches to hexadecimal). -/
def parseIntDigits (l : List Char) : Option Int :=
  match l with
  | '0' :: x :: rest =>
    if x = 'x' ∨ x = 'X' then
      match rest.takeWhile isHexDigitJS with
      | [] => none
      | hs => some (hexVal hs)
    else decDigitsParse l
  | _ => decDigitsParse l

/-- JavaScript parseInt on a string: skip leading whitespace, optional
sign, then a maximal digit run; none models NaN. -/
def parseIntStr (s : String) : Option Int :=
  match s.toList.dropWhile isSpaceJS with
  | '-' :: rest => (parseIntDigits rest).map (fun n => -n)
  | '+' :: rest => parseIntDigits rest
  | l => parseIntDigits l

/-- JavaScript parseInt applied to a scalar cell value (numbers are
stringified first; for integral values that round-trips exactly). -/
def parseIntJS : Value → Option Int
  | .num n => some n
  | .str s => parseIntStr s

/-- parseInt applied to a possibly absent cell (parseInt(null) is NaN). -/
def parseIntOpt (c : Option Value) : Option Int := c.bind parseIntJS

/-- Days-from-civil-date conversion (proleptic Gregorian, epoch 1970-01-01),
used to model the JavaScript Date value as a day count. -/
def daysFromCivil (y m d : Int) : Int :=
  let y2 := if m ≤ 2 then y - 1 else y
  let era := Int.fdiv y2 400
  let yoe := y2 - era * 400
  let mp := Int.fmod (m + 9) 12
  let doy := Int.fdiv (153 * mp + 2) 5 + d - 1
  let doe := yoe * 365 + Int.fdiv yoe 4 - Int.fdiv yoe 100 + doy
  era * 146097 + doe - 719468

/-- Civil-date-from-days conversion, inverse of daysFromCivil. -/
def civilFromDays (z : Int) : Int × Int × Int :=
  let z2 := z + 719468
  let era := Int.fdiv z2 146097
  let doe := z2 - era * 146097
  let yoe := Int.fdiv (doe - Int.fdiv doe 1460 + Int.fdiv doe 36524 - Int.fdiv doe 146096) 365
  let y := yoe + era * 400
  let doy := doe - (365 * yoe + Int.fdiv yoe 4 - Int.fdiv yoe 100)
  let mp := Int.fdiv (5 * doy + 2) 153
  let d := doy - Int.fdiv (153 * mp + 2) 5 + 1
  let m := if mp < 10 then mp + 3 else mp - 9
  (if m ≤ 2 then y + 1 else y, m, d)

/-- A JavaScript Date restricted to its calendar day, as epoch day count. -/
abbrev DateJS := Int

/-- The JavaScript Date(year, month, day) constructor: the 0-indexed month
is normalized into the year and the day may roll over month boundaries. -/
def mkDateJS (y m d : Int) : DateJS :=
  daysFromCivil (y + Int.fdiv m 12) (Int.fmod m 12 + 1) 1 + (d - 1)

/-- String(n).padStart(2, the zero character) for the month/day components. -/
def pad2 (n : Int) : String :=
  if n < 10 then "0" ++ toString n else toString n

/-- formatDate from the source: year-month-day with zero-padded month/day. -/
def formatDate (date : DateJS) : String :=
  let c := civilFromDays date
  toString c.1 ++ "-" ++ pad2 c.2.1 ++ "-" ++ pad2 c.2.2

/-- Leftmost match of the day-range file-name pattern: an opening
parenthesis, digits, dot, digits, tilde, digits, dot, digits, closing
parenthesis; captures the four numbers.  Greedy digit runs followed by
non-digit literals are maximal runs, so the backtracking regex is
equivalent to this direct scan. -/
def tryDayRange (l : List Char) : Option (Int × Int × Int × Int) :=
  match l.span Char.isDigit with
  | ([], _) => none
  | (d1, '.' :: r1) =>
    match r1.span Char.isDigit with
    | ([], _) => none
    | (d2, '~' :: r2) =>
      match r2.span Char.isDigit with
      | ([], _) => none
      | (d3, '.' :: r3) =>
        match r3.span Char.isDigit with
        | ([], _) => none
        | (d4, ')' :: _) => some (digitsVal d1, digitsVal d2, digitsVal d3, digitsVal d4)
        | _ => none
      | _ => none
    | _ => none
  | _ => none

/-- Scan for the leftmost position where the day-range pattern matches. -/
def scanDayRange : List Char → Option (Int × Int × Int × Int)
  | [] => none
  | '(' :: rest =>
    match tryDayRange rest with
    | some r => some r
    | none => scanDayRange rest
  | _ :: rest => scanDayRange rest

/-- The day-range regex applied to a file name. -/
def dayRangeMatch (s : String) : Option (Int × Int × Int × Int) :=
  scanDayRange s.toList

/-- Attempt of the year-month pattern at one start position: digits,
the year character, optional whitespace, digits, the month character. -/
def tryYearMonth (l : List Char) : Option (Int × Int) :=
  match l.span Char.isDigit with
  | ([], _) => none
  | (ys, '년' :: r1) =>
    match (r1.dropWhile isSpaceJS).span Char.isDigit with
    | ([], _) => none
    | (ms, '월' :: _) => some (digitsVal ys, digitsVal ms)
    | _ => none
  | _ => none

/-- Scan for the leftmost match of the year-month pattern. -/
def scanYearMonth : List Char → Option (Int × Int)
  | [] => none
  | c :: rest =>
    if c.isDigit then
      match tryYearMonth (c :: rest) with
      | some r => some r
      | none => scanYearMonth rest
    else scanYearMonth rest

/-- The year-month regex applied to a file name. -/
def yearMonthMatch (s : String) : Option (Int × Int) :=
  scanYearMonth s.toList

/-- Year normalization from the source: years below 100 are offsets
from the year 2000. -/
def normYear (y : Int) : Int := if y < 100 then y + 2000 else y

/-- extractDateFromFileName of the standalone variant: on a double
pattern match, year from the year-month pattern and month/day from the
first day of the day range; otherwise the fixed date 2026-01-12. -/
def extractDateFromFileName0 (fileName : String) : DateJS :=
  match dayRangeMatch fileName, yearMonthMatch fileName with
  | some dm, some ym => mkDateJS (normYear ym.1) (dm.1 - 1) dm.2.1
  | _, _ => mkDateJS 2026 0 12

/-- extractDateFromFileName of the module variant: identical on a double
pattern match, but the fallback is the current date (modelled as the
explicit parameter now). -/
def extractDateFromFileName1 (fileName : String) (now : DateJS) : DateJS :=
  match dayRangeMatch fileName, yearMonthMatch fileName with
  | some dm, some ym => mkDateJS (normYear ym.1) (dm.1 - 1) dm.2.1
  | _, _ => now

/-- A sheet: a finite cell map (1-indexed row/column) together with the
loop bound maxRow, which models decoded-range end row plus one. -/
structure Sheet where
  cells : List ((Nat × Nat) × Value)
  maxRow : Nat
deriving DecidableEq, Repr

/-- getCellValue from the source: the stored scalar, or null. -/
def getCell (s : Sheet) (r c : Nat) : Option Value :=
  (s.cells.find? (fun e => e.1.1 == r && e.1.2 == c)).map (fun e => e.2)

/-- A workbook: sheet names in order plus the name-to-sheet map. -/
structure Workbook where
  SheetNames : List String
  Sheets : List (String × Sheet)
deriving DecidableEq, Repr

/-- Sheet lookup by name (only reached for names listed in SheetNames). -/
def sheetOf (wb : Workbook) (name : String) : Sheet :=
  (wb.Sheets.lookup name).getD { cells := [], maxRow := 0 }

/-- JavaScript String.prototype.trim: strip JavaScript whitespace and
line terminators from both ends. -/
def trimJS (s : String) : String :=
  String.mk (((s.toList.dropWhile isSpaceJS).reverse.dropWhile isSpaceJS).reverse)

/-- Match of the tail of the store-name regex after the capture group:
optional whitespace then a colon (the trailing optional whitespace and
digits always succeed). -/
def tailOK (l : List Char) : Bool :=
  match l.dropWhile isSpaceJS with
  | ':' :: _ => true
  | _ => false

/-- Dot of the store-name regex: any character except a line terminator. -/
def dotOkJS (c : Char) : Bool :=
  !(c = '\n' || c = '\r' || c = ' ' || c = ' ')

/-- Lazy capture group of the store-name regex: grow the capture one
character at a time until the tail matches; fail on a line terminator
or at the end of the input. -/
def capLoop : List Char → List Char → Option (List Char)
  | _, [] => none
  | acc, c :: rest =>
    if dotOkJS c then
      if tailOK rest then some (acc ++ [c])
      else capLoop (acc ++ [c]) rest
    else none

/-- Greedy whitespace with backtracking between the marker and the
capture group: prefer consuming more whitespace first. -/
def wsBacktrack : List Char → Option (List Char)
  | [] => none
  | c :: rest =>
    if isSpaceJS c then
      match wsBacktrack rest with
      | some cap => some cap
      | none => capLoop [] (c :: rest)
    else capLoop [] (c :: rest)

/-- Leftmost match of the store-name regex: the marker character, then
whitespace, lazy capture, whitespace, colon, digits. -/
def scanStore : List Char → Option (List Char)
  | [] => none
  | c :: rest =>
    if c = '※' then
      match wsBacktrack rest with
      | some cap => some cap
      | none => scanStore rest
    else scanStore rest

/-- extractStoreName from the source: null for non-strings or strings
without the marker; otherwise the trimmed capture of the store regex. -/
def extractStoreName (cellValue : Option Value) : Option String :=
  match cellValue with
  | some (.str s) =>
    if s = "" then none
    else if s.toList.contains '※' then
      match scanStore s.toList with
      | some cap => some (trimJS (String.mk cap))
      | none => none
    else none
  | _ => none

/-- A block descriptor of the standalone variant (colCategory family). -/
structure Block0 where
  storeName : String
  row : Nat
  colNo : Nat
  colCategory : Nat
  colProduct : Nat
  colBox : Nat
deriving DecidableEq, Repr

/-- A block descriptor of the module variant (colAfternoon family). -/
structure Block1 where
  storeName : String
  row : Nat
  colNo : Nat
  colAfternoon : Nat
  colProduct : Nat
  colBox : Nat
deriving DecidableEq, Repr

/-- findStoreBlocks of the standalone variant: row-major scan of the two
column families anchored at columns 2 and 11. -/
def findStoreBlocks0 (sheet : Sheet) : List Block0 :=
  (List.range' 1 sheet.maxRow).flatMap (fun row =>
    (match extractStoreName (getCell sheet row 2) with
     | some n => [{ storeName := n, row := row, colNo := 2, colCategory := 4,
                    colProduct := 5, colBox := 6 : Block0 }]
     | none => []) ++
    (match extractStoreName (getCell sheet row 11) with
     | some n => [{ storeName := n, row := row, colNo := 11, colCategory := 13,
                    colProduct := 14, colBox := 15 : Block0 }]
     | none => []))

/-- findStoreBlocks of the module variant: three column families anchored
at columns 2, 11 and 20. -/
def findStoreBlocks1 (sheet : Sheet) : List Block1 :=
  (List.range' 1 sheet.maxRow).flatMap (fun row =>
    (match extractStoreName (getCell sheet row 2) with
     | some n => [{ storeName := n, row := row, colNo := 2, colAfternoon := 3,
                    colProduct := 5, colBox := 6 : Block1 }]
     | none => []) ++
    (match extractStoreName (getCell sheet row 11) with
     | some n => [{ storeName := n, row := row, colNo := 11, colAfternoon := 12,
                    colProduct := 14, colBox := 15 : Block1 }]
     | none => []) ++
    (match extractStoreName (getCell sheet row 20) with
     | some n => [{ storeName := n, row := row, colNo := 20, colAfternoon := 21,
                    colProduct := 23, colBox := 24 : Block1 }]
     | none => []))

/-- A product line of the standalone variant. -/
structure Product0 where
  storeName : String
  productName : String
  boxQty : Int
deriving DecidableEq, Repr

/-- A product line of the module variant (with the afternoon column). -/
structure Product1 where
  storeName : String
  productName : String
  boxQty : Int
  afternoon : String
deriving DecidableEq, Repr

/-- Row loop of extractProductsFromBlock (standalone variant): break on a
null or non-numeric sequence cell, skip falsy product names and rows whose
box quantity parses (with 0 default) to 0, emit a product otherwise. -/
def extractAux0 (sheet : Sheet) (b : Block0) : Nat → Nat → List Product0
  | 0, _ => []
  | fuel + 1, row =>
    match parseIntOpt (getCell sheet row b.colNo) with
    | none => []
    | some _ =>
      match getCell sheet row b.colProduct with
      | none => extractAux0 sheet b fuel (row + 1)
      | some pv =>
        if truthyV pv then
          let boxQty := (parseIntOpt (getCell sheet row b.colBox)).getD 0
          if boxQty = 0 then extractAux0 sheet b fuel (row + 1)
          else { storeName := b.storeName, productName := trimJS (jsToString pv),
                 boxQty := boxQty } :: extractAux0 sheet b fuel (row + 1)
        else extractAux0 sheet b fuel (row + 1)

/-- extractProductsFromBlock (standalone variant): the row loop starting
four rows below the anchor, at most maxProducts rows (default 25). -/
def extractProductsFromBlock0 (sheet : Sheet) (b : Block0)
    (maxProducts : Nat := 25) : List Product0 :=
  extractAux0 sheet b maxProducts (b.row + 4)

/-- Row loop of extractProductsFromBlock (module variant): identical
control flow, additionally carrying the trimmed afternoon-column text. -/
def extractAux1 (sheet : Sheet) (b : Block1) : Nat → Nat → List Product1
  | 0, _ => []
  | fuel + 1, row =>
    match parseIntOpt (getCell sheet row b.colNo) with
    | none => []
    | some _ =>
      match getCell sheet row b.colProduct with
      | none => extractAux1 sheet b fuel (row + 1)
      | some pv =>
        if truthyV pv then
          let boxQty := (parseIntOpt (getCell sheet row b.colBox)).getD 0
          if boxQty = 0 then extractAux1 sheet b fuel (row + 1)
          else
            let afternoon :=
              match getCell sheet row b.colAfternoon with
              | some av => if truthyV av then trimJS (jsToString av) else ""
              | none => ""
            { storeName := b.storeName, productName := trimJS (jsToString pv),
              boxQty := boxQty, afternoon := afternoon } :: extractAux1 sheet b fuel (row + 1)
        else extractAux1 sheet b fuel (row + 1)

/-- extractProductsFromBlock (module variant). -/
def extractProductsFromBlock1 (sheet : Sheet) (b : Block1)
    (maxProducts : Nat := 25) : List Product1 :=
  extractAux1 sheet b maxProducts (b.row + 4)

/-- A mapping entry: code and canonical store name (after the
empty-string defaults applied by the source). -/
structure MappingEntry where
  code : Value
  systemName : Value
deriving DecidableEq, Repr

/-- One row of the mapping sheet as produced by the row-to-object
conversion; absent cells are none. -/
structure MappingRow where
  originalName : Option Value
  code : Option Value
  systemName : Option Value
deriving DecidableEq, Repr

/-- The object key a mapping row registers: the stringified original
name when it is truthy, none otherwise (the row is ignored then). -/
def rowKey (r : MappingRow) : Option String :=
  match r.originalName with
  | some v => if truthyV v then some (jsToString v) else none
  | none => none

/-- The falsy-to-empty-string default applied to code and system name. -/
def orEmpty (o : Option Value) : Value :=
  match o with
  | some v => if truthyV v then v else .str ""
  | none => .str ""

/-- The entry stored for a mapping row. -/
def entryOf (r : MappingRow) : MappingEntry :=
  { code := orEmpty r.code, systemName := orEmpty r.systemName }

/-- One assignment of the mapping-table fold: a row with a truthy key
overwrites that key, any other row changes nothing. -/
def mappingStep (acc : String → Option MappingEntry) (row : MappingRow) :
    String → Option MappingEntry :=
  match rowKey row with
  | some k => fun n => if n = k then some (entryOf row) else acc n
  | none => acc

/-- parseMappingTable: fold the rows into a string-keyed map where later
rows overwrite earlier ones and rows with a falsy key are skipped. -/
def parseMappingTable (rows : List MappingRow) : String → Option MappingEntry :=
  rows.foldl mappingStep (fun _ => none)

/-- The five weekday sheet labels, in processing order. -/
def dayNames : List String := ["월", "화", "수", "목", "금"]

/-- The weekday label/date pairs: base date plus 0..4 days. -/
def dayDates (baseDate : DateJS) : List (String × DateJS) :=
  dayNames.enum.map (fun p => (p.2, baseDate + Int.ofNat p.1))

/-- Per-day totals of the standalone variant. -/
structure DayTotals where
  totalBox : Int
  storeBoxSum : Int
deriving DecidableEq, Repr

/-- One sum-marker contribution: if the marker cell holds the literal
sum marker string, add the paired box cell when it is truthy and parses
to a positive integer. -/
def sumMarkerContrib (sheet : Sheet) (row markCol boxCol : Nat) : Int :=
  match getCell sheet row markCol with
  | some v =>
    if v = .str "계" then
      match getCell sheet row boxCol with
      | some bv =>
        if truthyV bv then
          match parseIntJS bv with
          | some n => if 0 < n then n else 0
          | none => 0
        else 0
      | none => 0
    else 0
  | none => 0

/-- Totals of one day sheet: the fixed F8 total and the sum-marker scan
from row 35 to the end of the occupied range over both column families. -/
def dayTotalsOf (sheet : Sheet) : DayTotals :=
  { totalBox := (parseIntOpt (getCell sheet 8 6)).getD 0,
    storeBoxSum :=
      (List.range' 35 (sheet.maxRow + 1 - 35)).foldl
        (fun acc row => acc + sumMarkerContrib sheet row 2 6 + sumMarkerContrib sheet row 11 15) 0 }

/-- getDaySheetTotals: totals for each weekday whose sheet is present. -/
def getDaySheetTotals0 (wb : Workbook) (pairs : List (String × DateJS)) :
    List (String × DayTotals) :=
  pairs.filterMap (fun p =>
    if wb.SheetNames.contains p.1 then some (p.1, dayTotalsOf (sheetOf wb p.1)) else none)

/-- getOriginalBoxTotal of the module variant: the parsed F8 cell. -/
def getOriginalBoxTotal (sheet : Sheet) : Int :=
  (parseIntOpt (getCell sheet 8 6)).getD 0

/-- A dataset row of the standalone variant. -/
structure Rec0 where
  date : String
  code : Value
  systemName : Value
  productName : String
  boxQty : Int
deriving DecidableEq, Repr

/-- A dataset row of the module variant (with the afternoon column). -/
structure Rec1 where
  date : String
  code : Value
  systemName : Value
  productName : String
  boxQty : Int
  afternoon : String
deriving DecidableEq, Repr

/-- The sentinel code recorded on a mapping miss. -/
def failureCode : Value := .str "MAPPING_FAILED"

/-- The display name recorded on a mapping miss: marker plus raw name. -/
def failureName (storeName : String) : Value := .str ("[매핑실패] " ++ storeName)

/-- The identity attached to a block: mapping-table hit, or sentinel. -/
def resolveStore (mapping : String → Option MappingEntry) (storeName : String) :
    Value × Value :=
  match mapping storeName with
  | none => (failureCode, failureName storeName)
  | some e => (e.code, e.systemName)

/-- Dataset rows contributed by one block (standalone variant). -/
def blockRecords0 (mapping : String → Option MappingEntry) (dateStr : String)
    (sheet : Sheet) (b : Block0) : List Rec0 :=
  let ce := resolveStore mapping b.storeName
  (extractProductsFromBlock0 sheet b).map (fun p =>
    { date := dateStr, code := ce.1, systemName := ce.2,
      productName := p.productName, boxQty := p.boxQty })

/-- Records and (day, storeName) mapping failures of one weekday
(standalone variant); an absent sheet contributes nothing. -/
def processDay0 (wb : Workbook) (mapping : String → Option MappingEntry)
    (p : String × DateJS) : List Rec0 × List (String × String) :=
  if wb.SheetNames.contains p.1 then
    let sheet := sheetOf wb p.1
    let blocks := findStoreBlocks0 sheet
    (blocks.flatMap (blockRecords0 mapping (formatDate p.2) sheet),
     blocks.filterMap (fun b =>
       if (mapping b.storeName).isSome then none else some (p.1, b.storeName)))
  else ([], [])

/-- All dataset rows of a run (standalone variant), in day/block order. -/
def allRecords0 (wb : Workbook) (mapping : String → Option MappingEntry)
    (baseDate : DateJS) : List Rec0 :=
  ((dayDates baseDate).map (processDay0 wb mapping)).flatMap (fun d => d.1)

/-- All raw (day, storeName) mapping failures of a run (standalone). -/
def allFailures0 (wb : Workbook) (mapping : String → Option MappingEntry)
    (baseDate : DateJS) : List (String × String) :=
  ((dayDates baseDate).map (processDay0 wb mapping)).flatMap (fun d => d.2)

/-- The mismatch message carrying the difference. -/
def mismatchMsg (diff : Int) : String := "불일치 (차이: " ++ toString diff ++ ")"

/-- A validation row of the standalone variant. -/
structure ValRow0 where
  date : String
  dayName : String
  extractedSum : Int
  originalTotal : Int
  originalStoreSum : Int
  matchResult : String
deriving DecidableEq, Repr

/-- One validation row (standalone variant): extracted sum over matching
dates, totals looked up with empty-object default, and the match verdict. -/
def buildValidation0 (data : List Rec0) (totals : List (String × DayTotals))
    (p : String × DateJS) : ValRow0 :=
  let dateStr := formatDate p.2
  let extracted := (data.filter (fun r => r.date == dateStr)).foldl
    (fun s r => s + r.boxQty) 0
  let originalTotal := match totals.lookup p.1 with | some t => t.totalBox | none => 0
  let originalStore := match totals.lookup p.1 with | some t => t.storeBoxSum | none => 0
  { date := dateStr, dayName := p.1, extractedSum := extracted,
    originalTotal := originalTotal, originalStoreSum := originalStore,
    matchResult :=
      if 0 < originalStore then
        if extracted = originalStore then "일치" else mismatchMsg (extracted - originalStore)
      else "원본 데이터 없음" }

/-- A per-store per-day aggregate row. -/
structure StoreDailyRow where
  date : String
  code : Value
  systemName : Value
  boxSum : Int
deriving DecidableEq, Repr

/-- The grouping key: date, code and system name joined by underscores. -/
def storeKey (date : String) (code systemName : Value) : String :=
  date ++ "_" ++ jsToString code ++ "_" ++ jsToString systemName

/-- One step of the aggregate fold: first key occurrence appends a row,
later occurrences add to its box sum. -/
def storeDailyStep0 (acc : List (String × StoreDailyRow)) (r : Rec0) :
    List (String × StoreDailyRow) :=
  let k := storeKey r.date r.code r.systemName
  if acc.any (fun e => e.1 == k) then
    acc.map (fun e => if e.1 == k then (e.1, { e.2 with boxSum := e.2.boxSum + r.boxQty }) else e)
  else acc ++ [(k, { date := r.date, code := r.code, systemName := r.systemName, boxSum := r.boxQty })]

/-- Spread of a JavaScript Set built from a list: first occurrences in
order, duplicates dropped. -/
def jsSetDedup (l : List String) : List String :=
  l.foldl (fun acc s => if acc.contains s then acc else acc ++ [s]) []

/-- The output of the standalone variant. -/
structure Result0 where
  data : List Rec0
  validation : List ValRow0
  storeDaily : List StoreDailyRow
  mappingFailures : List String
deriving DecidableEq, Repr

/-- convertData of the standalone variant.  The origin file name is the
global selected-file name, passed here as a parameter.  The validation
loop runs over all five weekday labels, present or not. -/
def convertData (wb : Workbook) (mapping : String → Option MappingEntry)
    (fileName : String) : Result0 :=
  let baseDate := extractDateFromFileName0 fileName
  let pairs := dayDates baseDate
  { data := allRecords0 wb mapping baseDate,
    validation := pairs.map
      (buildValidation0 (allRecords0 wb mapping baseDate) (getDaySheetTotals0 wb pairs)),
    storeDaily := ((allRecords0 wb mapping baseDate).foldl storeDailyStep0 []).map (fun e => e.2),
    mappingFailures := jsSetDedup ((allFailures0 wb mapping baseDate).map (fun f => f.2)) }

/-- Dataset rows contributed by one block (module variant). -/
def blockRecords1 (mapping : String → Option MappingEntry) (dateStr : String)
    (sheet : Sheet) (b : Block1) : List Rec1 :=
  let ce := resolveStore mapping b.storeName
  (extractProductsFromBlock1 sheet b).map (fun p =>
    { date := dateStr, code := ce.1, systemName := ce.2,
      productName := p.productName, boxQty := p.boxQty, afternoon := p.afternoon })

/-- Records and (day, storeName) mapping failures of one weekday
(module variant); an absent sheet contributes nothing. -/
def processDay1 (wb : Workbook) (mapping : String → Option MappingEntry)
    (p : String × DateJS) : List Rec1 × List (String × String) :=
  if wb.SheetNames.contains p.1 then
    let sheet := sheetOf wb p.1
    let blocks := findStoreBlocks1 sheet
    (blocks.flatMap (blockRecords1 mapping (formatDate p.2) sheet),
     blocks.filterMap (fun b =>
       if (mapping b.storeName).isSome then none else some (p.1, b.storeName)))
  else ([], [])

/-- All dataset rows of a run (module variant), in day/block order. -/
def allRecords1 (wb : Workbook) (mapping : String → Option MappingEntry)
    (baseDate : DateJS) : List Rec1 :=
  ((dayDates baseDate).map (processDay1 wb mapping)).flatMap (fun d => d.1)

/-- All raw (day, storeName) mapping failures of a run (module variant). -/
def allFailures1 (wb : Workbook) (mapping : String → Option MappingEntry)
    (baseDate : DateJS) : List (String × String) :=
  ((dayDates baseDate).map (processDay1 wb mapping)).flatMap (fun d => d.2)

/-- A validation row of the module variant. -/
structure ValRow1 where
  date : String
  dayName : String
  extractedSum : Int
  originalBox : Int
  matchResult : String
deriving DecidableEq, Repr

/-- One validation row (module variant): extracted sum over matching
dates, the F8 original total, and the match verdict. -/
def buildValidation1 (data : List Rec1) (sheet : Sheet)
    (p : String × DateJS) : ValRow1 :=
  let dateStr := formatDate p.2
  let extracted := (data.filter (fun r => r.date == dateStr)).foldl
    (fun s r => s + r.boxQty) 0
  let originalBox := getOriginalBoxTotal sheet
  { date := dateStr, dayName := p.1, extractedSum := extracted,
    originalBox := originalBox,
    matchResult :=
      if 0 < originalBox then
        if extracted = originalBox then "일치" else mismatchMsg (extracted - originalBox)
      else "원본 데이터 없음" }

/-- Aggregate fold step of the module variant. -/
def storeDailyStep1 (acc : List (String × StoreDailyRow)) (r : Rec1) :
    List (String × StoreDailyRow) :=
  let k := storeKey r.date r.code r.systemName
  if acc.any (fun e => e.1 == k) then
    acc.map (fun e => if e.1 == k then (e.1, { e.2 with boxSum := e.2.boxSum + r.boxQty }) else e)
  else acc ++ [(k, { date := r.date, code := r.code, systemName := r.systemName, boxSum := r.boxQty })]

/-- The output of the module variant. -/
structure Result1 where
  data : List Rec1
  validation : List ValRow1
  storeDaily : List StoreDailyRow
  mappingFailures : List String
deriving DecidableEq, Repr

/-- Body of convertDataJS once the base date is computed: the validation
loop skips weekday labels whose sheet is absent. -/
def convertCore1 (wb : Workbook) (mapping : String → Option MappingEntry)
    (baseDate : DateJS) : Result1 :=
  let pairs := dayDates baseDate
  { data := allRecords1 wb mapping baseDate,
    validation := pairs.filterMap (fun p =>
      if wb.SheetNames.contains p.1 then
        some (buildValidation1 (allRecords1 wb mapping baseDate) (sheetOf wb p.1) p)
      else none),
    storeDaily := ((allRecords1 wb mapping baseDate).foldl storeDailyStep1 []).map (fun e => e.2),
    mappingFailures := jsSetDedup ((allFailures1 wb mapping baseDate).map (fun f => f.2)) }

/-- convertDataJS of the module variant; the current time enters only
through the fallback of the date extraction. -/
def convertDataJS (wb : Workbook) (mapping : String → Option MappingEntry)
    (fileName : String) (now : DateJS) : Result1 :=
  convertCore1 wb mapping (extractDateFromFileName1 fileName now)

/-- A sheet whose row-5 sequence cell does not parse as an integer. -/
def badSeqSheet : Sheet := { cells := [((5, 2), .str "x")], maxRow := 9 }

/-- A column-family-A block descriptor anchored at row 1 (standalone). -/
def blockA0 : Block0 :=
  { storeName := "S", row := 1, colNo := 2, colCategory := 4, colProduct := 5, colBox := 6 }

/-- A column-family-A block descriptor anchored at row 1 (module). -/
def blockA1 : Block1 :=
  { storeName := "S", row := 1, colNo := 11, colAfternoon := 12, colProduct := 14, colBox := 15 }

/-- A sheet with one anchored store block whose only product row has a
whitespace-only product name and a negative box quantity. -/
def negQtySheet : Sheet :=
  { cells := [((1, 2), .str "※ S :"), ((5, 2), .num 1), ((5, 5), .str " "), ((5, 6), .num (-3))],
    maxRow := 5 }

/-- A workbook with no sheets at all. -/
def emptyWb : Workbook := { SheetNames := [], Sheets := [] }

/-- A workbook whose only sheet is an empty Monday sheet. -/
def mondayWb : Workbook :=
  { SheetNames := ["월"], Sheets := [("월", { cells := [], maxRow := 1 })] }

/-- A workbook whose Monday sheet carries the negative-quantity block. -/
def negQtyWb : Workbook := { SheetNames := ["월"], Sheets := [("월", negQtySheet)] }

/-- The empty mapping table (every lookup misses). -/
def noMapping : String → Option MappingEntry := fun _ => none

/-- The scenario file name from the specification. -/
def scenarioName : String := "간식서비스 2026년 1월 발주 (1.12~1.16).xlsx"

/-- A mapping row keyed by the name A with code C1. -/
def rowA : MappingRow :=
  { originalName := some (.str "A"), code := some (.str "C1"), systemName := some (.str "N1") }

/-- A second mapping row with the same key A and code C2. -/
def rowB : MappingRow :=
  { originalName := some (.str "A"), code := some (.str "C2"), systemName := some (.str "N2") }

/-- The Monday validation row produced on the negative-quantity workbook. -/
def monNegRow : ValRow0 :=
  { date := "2026-01-12", dayName := "월", extractedSum := -3, originalTotal := 0,
    originalStoreSum := 0, matchResult := "원본 데이터 없음" }

lemma foldl_add_eq_sum {α : Type} (f : α → Int) :
    ∀ (l : List α) (s : Int), l.foldl (fun acc a => acc + f a) s = s + (l.map f).sum := by
  intro l
  induction l with
  | nil => intro s; simp
  | cons a t ih => intro s; simp [List.foldl_cons, ih, add_assoc]

lemma filter_foldl_sum {α : Type} (f : α → Int) (p : α → Bool) (l : List α) :
    (l.filter p).foldl (fun s a => s + f a) 0 = (l.map fun a => if p a then f a else 0).sum := by
  rw [foldl_add_eq_sum, zero_add]
  induction l with
  | nil => simp
  | cons a t ih =>
    by_cases h : p a
    · simp [List.filter_cons, h, ih]
    · simp [List.filter_cons, h, ih]

lemma mismatchMsg_data (d : Int) :
    (mismatchMsg d).data = '불' :: ("일치 (차이: " ++ toString d ++ ")").data := by
  simp [mismatchMsg, String.data_append]

lemma mismatchMsg_ne_match (d : Int) : mismatchMsg d ≠ "일치" := by
  intro h
  have h2 := congrArg String.data h
  rw [mismatchMsg_data] at h2
  have h3 : "일치".data = '일' :: "치".data := rfl
  rw [h3] at h2
  have h4 := List.head_eq_of_cons_eq h2
  exact absurd h4 (by decide)

lemma mismatchMsg_ne_nodata (d : Int) : mismatchMsg d ≠ "원본 데이터 없음" := by
  intro h
  have h2 := congrArg String.data h
  rw [mismatchMsg_data] at h2
  have h3 : "원본 데이터 없음".data = '원' :: "본 데이터 없음".data := rfl
  rw [h3] at h2
  have h4 := List.head_eq_of_cons_eq h2
  exact absurd h4 (by decide)

/-- C1: inside the scanned row window (anchorRow+4 .. anchorRow+4+maxProducts-1,
maxProducts defaulting to 25, the window being extractProductsFromBlock's call
of the row loop at anchorRow+4), in both variants, a row whose sequence cell is
null or does not parse as an integer terminates extraction — the loop returns
immediately and no later row is read — whereas a row with a parsable sequence
cell whose product-name cell is falsy, or whose box quantity parses (with
default 0) to 0, is only skipped: the loop continues with the next row. -/
theorem extract_terminates_on_bad_seq_and_skips_blank_rows
    (sheet : Sheet) (b0 : Block0) (b1 : Block1) (f r : Nat) :
    (extractProductsFromBlock0 sheet b0 = extractAux0 sheet b0 25 (b0.row + 4)
      ∧ extractProductsFromBlock1 sheet b1 = extractAux1 sheet b1 25 (b1.row + 4))
  ∧ (parseIntOpt (getCell sheet r b0.colNo) = none →
      extractAux0 sheet b0 (f + 1) r = [])
  ∧ ((parseIntOpt (getCell sheet r b0.colNo)).isSome →
      truthyOpt (getCell sheet r b0.colProduct) = false →
      extractAux0 sheet b0 (f + 1) r = extractAux0 sheet b0 f (r + 1))
  ∧ ((parseIntOpt (getCell sheet r b0.colNo)).isSome →
      (parseIntOpt (getCell sheet r b0.colBox)).getD 0 = 0 →
      extractAux0 sheet b0 (f + 1) r = extractAux0 sheet b0 f (r + 1))
  ∧ (parseIntOpt (getCell sheet r b1.colNo) = none →
      extractAux1 sheet b1 (f + 1) r = [])
  ∧ ((parseIntOpt (getCell sheet r b1.colNo)).isSome →
      truthyOpt (getCell sheet r b1.colProduct) = false →
      extractAux1 sheet b1 (f + 1) r = extractAux1 sheet b1 f (r + 1))
  ∧ ((parseIntOpt (getCell sheet r b1.colNo)).isSome →
      (parseIntOpt (getCell sheet r b1.colBox)).getD 0 = 0 →
      extractAux1 sheet b1 (f + 1) r = extractAux1 sheet b1 f (r + 1)) := by
  refine ⟨⟨rfl, rfl⟩, ?_, ?_, ?_, ?_, ?_, ?_⟩
  · intro h
    simp [extractAux0, h]
  · intro h1 h2
    obtain ⟨n, hn⟩ := Option.isSome_iff_exists.mp h1
    rcases hc : getCell sheet r b0.colProduct with _ | pv
    · simp [extractAux0, hn, hc]
    · have ht : truthyV pv = false := by simpa [truthyOpt, hc] using h2
      simp [extractAux0, hn, hc, ht]
  · intro h1 h2
    obtain ⟨n, hn⟩ := Option.isSome_iff_exists.mp h1
    rcases hc : getCell sheet r b0.colProduct with _ | pv
    · simp [extractAux0, hn, hc]
    · by_cases ht : truthyV pv
      · simp [extractAux0, hn, hc, ht, h2]
      · simp [extractAux0, hn, hc, ht]
  · intro h
    simp [extractAux1, h]
  · intro h1 h2
    obtain ⟨n, hn⟩ := Option.isSome_iff_exists.mp h1
    rcases hc : getCell sheet r b1.colProduct with _ | pv
    · simp [extractAux1, hn, hc]
    · have ht : truthyV pv = false := by simpa [truthyOpt, hc] using h2
      simp [extractAux1, hn, hc, ht]
  · intro h1 h2
    obtain ⟨n, hn⟩ := Option.isSome_iff_exists.mp h1
    rcases hc : getCell sheet r b1.colProduct with _ | pv
    · simp [extractAux1, hn, hc]
    · by_cases ht : truthyV pv
      · simp [extractAux1, hn, hc, ht, h2]
      · simp [extractAux1, hn, hc, ht]

/-- C1 witness: on a concrete sheet whose row-5 sequence cell holds a
non-numeric string, the row loop terminates with no products. -/
theorem extract_terminates_witness :
    parseIntOpt (getCell badSeqSheet 5 2) = none ∧ extractAux0 badSeqSheet blockA0 1 5 = [] :=
  ⟨by decide,
   (extract_terminates_on_bad_seq_and_skips_blank_rows badSeqSheet blockA0 blockA1 0 5).2.1
     (by decide)⟩

lemma extractAux0_boxQty_ne_zero (sheet : Sheet) (b : Block0) :
    ∀ (f r : Nat) (p : Product0), p ∈ extractAux0 sheet b f r → p.boxQty ≠ 0 := by
  intro f
  induction f with
  | zero => intro r p h; simp [extractAux0] at h
  | succ n ih =>
    intro r p h
    rcases hseq : parseIntOpt (getCell sheet r b.colNo) with _ | n0
    · simp [extractAux0, hseq] at h
    · rcases hc : getCell sheet r b.colProduct with _ | pv
      · rw [extractAux0] at h
        simp only [hseq, hc] at h
        exact ih _ _ h
      · by_cases ht : truthyV pv
        · by_cases hz : (parseIntOpt (getCell sheet r b.colBox)).getD 0 = 0
          · rw [extractAux0] at h
            simp only [hseq, hc, ht, if_true, hz, if_pos] at h
            exact ih _ _ h
          · rw [extractAux0] at h
            simp [hseq, hc, ht, hz] at h
            rcases h with h1 | h1
            · subst h1; simpa using hz
            · exact ih _ _ h1
        · rw [extractAux0] at h
          simp only [hseq, hc, ht] at h
          exact ih _ _ h

lemma extractAux1_boxQty_ne_zero (sheet : Sheet) (b : Block1) :
    ∀ (f r : Nat) (p : Product1), p ∈ extractAux1 sheet b f r → p.boxQty ≠ 0 := by
  intro f
  induction f with
  | zero => intro r p h; simp [extractAux1] at h
  | succ n ih =>
    intro r p h
    rcases hseq : parseIntOpt (getCell sheet r b.colNo) with _ | n0
    · simp [extractAux1, hseq] at h
    · rcases hc : getCell sheet r b.colProduct with _ | pv
      · rw [extractAux1] at h
        simp only [hseq, hc] at h
        exact ih _ _ h
      · by_cases ht : truthyV pv
        · by_cases hz : (parseIntOpt (getCell sheet r b.colBox)).getD 0 = 0
          · rw [extractAux1] at h
            simp only [hseq, hc, ht, if_true, hz, if_pos] at h
            exact ih _ _ h
          · rw [extractAux1] at h
            simp [hseq, hc, ht, hz] at h
            rcases h with h1 | h1
            · subst h1; simpa using hz
            · exact ih _ _ h1
        · rw [extractAux1] at h
          simp only [hseq, hc, ht] at h
          exact ih _ _ h

/-- C8 counterexample: the claimed invariant (strictly positive boxQty and
non-empty trimmed productName) fails on a concrete sheet: the block found by
findStoreBlocks yields a product line with boxQty -3 and empty productName,
because a negative box cell is non-zero and a whitespace-only product cell is
truthy but trims to the empty string. -/
theorem product_invariant_counterexample :
    ¬ (∀ b ∈ findStoreBlocks0 negQtySheet,
        ∀ p ∈ extractProductsFromBlock0 negQtySheet b,
          0 < p.boxQty ∧ p.productName ≠ "") := by
  decide

/-- C8 (amended): every ProductLine emitted by the extractor, in both
variants, has a boxQty that is a nonzero integer; the stronger stated
invariant (positivity, non-empty product name) does not hold. -/
theorem product_boxQty_nonzero (sheet : Sheet) (b0 : Block0) (b1 : Block1) (m : Nat) :
    (∀ p ∈ extractProductsFromBlock0 sheet b0 m, p.boxQty ≠ 0)
  ∧ (∀ p ∈ extractProductsFromBlock1 sheet b1 m, p.boxQty ≠ 0) :=
  ⟨fun p hp => extractAux0_boxQty_ne_zero sheet b0 m (b0.row + 4) p hp,
   fun p hp => extractAux1_boxQty_ne_zero sheet b1 m (b1.row + 4) p hp⟩

/-- C8 witness: the extractor emits a concrete product line and its
boxQty is nonzero. -/
theorem product_boxQty_nonzero_witness :
    extractProductsFromBlock0 negQtySheet blockA0 25 =
      [{ storeName := "S", productName := "", boxQty := -3 }]
  ∧ ({ storeName := "S", productName := "", boxQty := -3 } : Product0).boxQty ≠ 0 := by
  have hl : extractProductsFromBlock0 negQtySheet blockA0 25 =
      [{ storeName := "S", productName := "", boxQty := -3 }] := by decide
  refine ⟨hl, ?_⟩
  exact (product_boxQty_nonzero negQtySheet blockA0 blockA1 25).1 _
    (by rw [hl]; exact List.mem_singleton_self _)

lemma mappingStep_skip (acc : String → Option MappingEntry) (row : MappingRow)
    (h : rowKey row = none) : mappingStep acc row = acc := by
  simp [mappingStep, h]

lemma foldl_mappingStep_not_mem (k : String) :
    ∀ (post : List MappingRow) (acc : String → Option MappingEntry),
      (∀ r ∈ post, rowKey r ≠ some k) → (post.foldl mappingStep acc) k = acc k := by
  intro post
  induction post with
  | nil => intro acc _; rfl
  | cons r t ih =>
    intro acc h
    have hr := h r (List.mem_cons_self r t)
    have ht := fun x hx => h x (List.mem_cons_of_mem r hx)
    rw [List.foldl_cons, ih _ ht]
    rcases hk : rowKey r with _ | k2
    · simp [mappingStep, hk]
    · have hne : k ≠ k2 := fun he => hr (by rw [hk, he])
      simp [mappingStep, hk, hne]

/-- C10: when several mapping rows share the same non-empty key, the
parsed table maps that key to the entry of the last such row, and a row
with a falsy key leaves the table exactly as if the row were absent. -/
theorem parseMappingTable_last_wins_and_skips_falsy
    (pre post : List MappingRow) (row : MappingRow) (k : String) :
    (rowKey row = some k → (∀ r ∈ post, rowKey r ≠ some k) →
      parseMappingTable (pre ++ row :: post) k = some (entryOf row))
  ∧ (rowKey row = none →
      parseMappingTable (pre ++ row :: post) = parseMappingTable (pre ++ post)) := by
  constructor
  · intro hk hpost
    rw [parseMappingTable, List.foldl_append, List.foldl_cons,
      foldl_mappingStep_not_mem k post _ hpost]
    simp [mappingStep, hk]
  · intro hk
    rw [parseMappingTable, parseMappingTable, List.foldl_append, List.foldl_append,
      List.foldl_cons, mappingStep_skip _ _ hk]

/-- C10 witness: with two rows keyed A, the lookup of A returns the
entry of the later row. -/
theorem parseMappingTable_witness :
    rowKey rowB = some "A"
  ∧ parseMappingTable [rowA, rowB] "A" = some (entryOf rowB) :=
  ⟨by decide,
   (parseMappingTable_last_wins_and_skips_falsy [rowA] [] rowB "A").1 (by decide) (by simp)⟩

/-- C5 counterexample: when the date patterns fail to match, the module
variant does not return a fixed deployment constant — its fallback value
follows the current date, so two runs at different times disagree. -/
theorem dateResolution_counterexample :
    extractDateFromFileName1 "nodate.xlsx" 0 ≠ extractDateFromFileName1 "nodate.xlsx" 1 := by
  decide

/-- C5 (amended): when both file-name patterns match, both variants
return the date built from the year-month pattern's year (years below
100 offset from 2000) and the day-range pattern's first month/day; when
either pattern fails, the standalone variant falls back to the fixed
date 2026-01-12 while the module variant falls back to the current
date; the scenario file name resolves to 2026-01-12 with weekday dates
2026-01-12 through 2026-01-16. -/
theorem dateResolution (fileName : String) (now : DateJS) :
    (∀ m1 d1 m2 d2 y mo,
        dayRangeMatch fileName = some (m1, d1, m2, d2) →
        yearMonthMatch fileName = some (y, mo) →
        extractDateFromFileName0 fileName = mkDateJS (normYear y) (m1 - 1) d1
        ∧ extractDateFromFileName1 fileName now = mkDateJS (normYear y) (m1 - 1) d1)
  ∧ (dayRangeMatch fileName = none ∨ yearMonthMatch fileName = none →
      extractDateFromFileName0 fileName = mkDateJS 2026 0 12
      ∧ extractDateFromFileName1 fileName now = now)
  ∧ formatDate (extractDateFromFileName0 scenarioName) = "2026-01-12"
  ∧ (dayDates (extractDateFromFileName0 scenarioName)).map (fun p => formatDate p.2) =
      ["2026-01-12", "2026-01-13", "2026-01-14", "2026-01-15", "2026-01-16"] := by
  refine ⟨?_, ?_, by decide, by decide⟩
  · intro m1 d1 m2 d2 y mo h1 h2
    exact ⟨by simp [extractDateFromFileName0, h1, h2],
           by simp [extractDateFromFileName1, h1, h2]⟩
  · intro h
    rcases h with h | h
    · exact ⟨by simp [extractDateFromFileName0, h],
             by simp [extractDateFromFileName1, h]⟩
    · rcases hd : dayRangeMatch fileName with _ | dm
      · exact ⟨by simp [extractDateFromFileName0, hd],
               by simp [extractDateFromFileName1, hd]⟩
      · exact ⟨by simp [extractDateFromFileName0, hd, h],
               by simp [extractDateFromFileName1, hd, h]⟩

/-- C5 witness: the scenario file name matches both patterns and both
variants resolve it to 2026-01-12. -/
theorem dateResolution_witness :
    dayRangeMatch scenarioName = some (1, 12, 1, 16)
  ∧ yearMonthMatch scenarioName = some (2026, 1)
  ∧ (extractDateFromFileName0 scenarioName = mkDateJS (normYear 2026) (1 - 1) 12
      ∧ extractDateFromFileName1 scenarioName 0 = mkDateJS (normYear 2026) (1 - 1) 12) :=
  ⟨by decide, by decide,
   (dateResolution scenarioName 0).1 1 12 1 16 2026 1 (by decide) (by decide)⟩

/-- C9 counterexample: with a file name that matches neither date
pattern, the module pipeline is not a pure function of the two input
workbooks and the file name — runs at two different times differ. -/
theorem convert_run_counterexample :
    convertDataJS mondayWb noMapping "nodate.xlsx" 0 ≠
      convertDataJS mondayWb noMapping "nodate.xlsx" 1 := by
  decide

/-- C9 (amended): the standalone pipeline is a pure function of its
inputs, and the module pipeline is independent of the current time —
hence yields identical output on repeated runs — whenever the file name
matches both date patterns; when a pattern misses, its fallback uses the
current date and repeated runs can differ. -/
theorem convert_deterministic_when_patterns_match
    (wb : Workbook) (mapping : String → Option MappingEntry) (fileName : String)
    (now now2 : DateJS)
    (h1 : (dayRangeMatch fileName).isSome) (h2 : (yearMonthMatch fileName).isSome) :
    convertDataJS wb mapping fileName now = convertDataJS wb mapping fileName now2 := by
  obtain ⟨dm, hdm⟩ := Option.isSome_iff_exists.mp h1
  obtain ⟨ym, hym⟩ := Option.isSome_iff_exists.mp h2
  unfold convertDataJS
  rw [show extractDateFromFileName1 fileName now = extractDateFromFileName1 fileName now2 from by
    simp [extractDateFromFileName1, hdm, hym]]

/-- C9 witness: on the scenario file name the module pipeline gives the
same output at two different current times. -/
theorem convert_deterministic_witness :
    (dayRangeMatch scenarioName).isSome
  ∧ convertDataJS mondayWb noMapping scenarioName 0 =
      convertDataJS mondayWb noMapping scenarioName 5 :=
  ⟨by decide,
   convert_deterministic_when_patterns_match mondayWb noMapping scenarioName 0 5
     (by decide) (by decide)⟩

lemma map_dayName_filterMap (c : String → Bool) (g : (String × DateJS) → ValRow1)
    (hg : ∀ p, (g p).dayName = p.1) :
    ∀ ps : List (String × DateJS),
      ((ps.filterMap fun p => if c p.1 then some (g p) else none).map fun v => v.dayName) =
        (ps.map fun p => p.1).filter c := by
  intro ps
  induction ps with
  | nil => rfl
  | cons p t ih =>
    by_cases h : c p.1
    · simp [List.filterMap_cons, h, List.filter_cons, ih, hg]
    · simp [List.filterMap_cons, h, List.filter_cons, ih]

lemma dayDates_map_fst (base : DateJS) : (dayDates base).map (fun p => p.1) = dayNames := by
  rw [dayDates, List.map_map]
  exact List.enum_map_snd dayNames

/-- C7 counterexample: on a workbook with no sheets at all, the
standalone variant still emits one validation row per weekday label, so
a weekday label with no sheet does contribute a validation row there. -/
theorem validation_rows_counterexample :
    emptyWb.SheetNames = []
  ∧ ((convertData emptyWb noMapping "f").validation.map fun v => v.dayName) =
      ["월", "화", "수", "목", "금"] :=
  ⟨rfl, by decide⟩

/-- C7 (amended): the module variant's Validation output has exactly one
row per weekday label whose sheet is present — in label order, and absent
labels contribute no row — whereas the standalone variant emits one
validation row for every one of the five weekday labels regardless of
sheet presence; in both variants a weekday label with no sheet of that
name contributes no dataset rows and no mapping-failure entries, and
raises no error: the per-day step is total and returns empty lists. -/
theorem validation_rows_per_weekday
    (wb : Workbook) (mapping : String → Option MappingEntry) (fileName : String)
    (now : DateJS) :
    (((convertDataJS wb mapping fileName now).validation.map fun v => v.dayName) =
      dayNames.filter (fun d => wb.SheetNames.contains d)
  ∧ ((convertData wb mapping fileName).validation.map fun v => v.dayName) = dayNames)
  ∧ (∀ p : String × DateJS, wb.SheetNames.contains p.1 = false →
      processDay0 wb mapping p = ([], []) ∧ processDay1 wb mapping p = ([], [])) := by
  refine ⟨?_, ?_⟩
  swap
  · intro p hc
    have hm2 : ¬ wb.SheetNames.contains p.1 = true := by
      rw [hc]
      decide
    constructor
    · rw [processDay0, if_neg hm2]
    · rw [processDay1, if_neg hm2]
  constructor
  · show (((dayDates (extractDateFromFileName1 fileName now)).filterMap fun p =>
        if wb.SheetNames.contains p.1 then
          some (buildValidation1
            (allRecords1 wb mapping (extractDateFromFileName1 fileName now))
            (sheetOf wb p.1) p)
        else none).map fun v => v.dayName) = dayNames.filter (fun d => wb.SheetNames.contains d)
    rw [map_dayName_filterMap (fun d => wb.SheetNames.contains d) _ (fun p => rfl),
      dayDates_map_fst]
  · show (((dayDates (extractDateFromFileName0 fileName)).map
        (buildValidation0 (allRecords0 wb mapping (extractDateFromFileName0 fileName))
          (getDaySheetTotals0 wb (dayDates (extractDateFromFileName0 fileName))))).map
        fun v => v.dayName) = dayNames
    rw [List.map_map]
    have he : ((fun v => ValRow0.dayName v) ∘
        (buildValidation0 (allRecords0 wb mapping (extractDateFromFileName0 fileName))
          (getDaySheetTotals0 wb (dayDates (extractDateFromFileName0 fileName))))) =
        fun p => p.1 := funext fun p => rfl
    rw [he, dayDates_map_fst]

/-- C7 witness: on the workbook with no sheets, the Monday label is
absent and both variants' per-day step contributes no dataset rows and
no mapping-failure entries. -/
theorem validation_rows_witness :
    emptyWb.SheetNames.contains "월" = false
  ∧ processDay0 emptyWb noMapping ("월", mkDateJS 2026 0 12) = ([], [])
  ∧ processDay1 emptyWb noMapping ("월", mkDateJS 2026 0 12) = ([], []) :=
  ⟨by decide,
   ((validation_rows_per_weekday emptyWb noMapping "f" 0).2 ("월", mkDateJS 2026 0 12)
     (by decide)).1,
   ((validation_rows_per_weekday emptyWb noMapping "f" 0).2 ("월", mkDateJS 2026 0 12)
     (by decide)).2⟩

lemma match_str_ne_nodata : ("일치" : String) ≠ "원본 데이터 없음" := by decide

lemma verdictIff (e o : Int) :
    ((if 0 < o then if e = o then "일치" else mismatchMsg (e - o) else "원본 데이터 없음") = "일치"
      ↔ e = o ∧ 0 < o)
  ∧ ((if 0 < o then if e = o then "일치" else mismatchMsg (e - o) else "원본 데이터 없음") =
        "원본 데이터 없음" ↔ ¬ 0 < o)
  ∧ ((0 < o ∧ e ≠ o) ↔
      (if 0 < o then if e = o then "일치" else mismatchMsg (e - o) else "원본 데이터 없음") =
        mismatchMsg (e - o)) := by
  by_cases ho : 0 < o
  · by_cases he : e = o
    · refine ⟨by simp [ho, he], by simp [ho, he, match_str_ne_nodata], ?_⟩
      simp only [ho, he, if_true, if_pos]
      constructor
      · rintro ⟨_, hne⟩; exact absurd rfl hne
      · intro h; exact absurd h.symm (mismatchMsg_ne_match _)
    · refine ⟨?_, ?_, by simp [ho, he]⟩
      · simp only [ho, he, if_true, if_neg, if_false]
        constructor
        · intro h; exact absurd h (mismatchMsg_ne_match _)
        · rintro ⟨h, _⟩; exact h.elim
      · simp only [ho, he, if_true, if_neg, if_false]
        constructor
        · intro h; exact absurd h (mismatchMsg_ne_nodata _)
        · intro h; exact absurd trivial h
  · refine ⟨?_, by simp [ho], ?_⟩
    · simp only [ho, if_neg, if_false]
      constructor
      · intro h; exact absurd h.symm match_str_ne_nodata
      · rintro ⟨_, h2⟩; exact h2.elim
    · simp only [ho, if_neg, if_false]
      constructor
      · rintro ⟨h, _⟩; exact h.elim
      · intro h; exact absurd h.symm (mismatchMsg_ne_nodata _)

/-- C2: in both variants, every emitted validation row classifies as the
match string exactly when the extracted sum equals the original sum and
that sum is strictly positive, as the no-original-data string exactly
when the original sum is not strictly positive, and as the mismatch
string carrying diff = extractedSum - original sum otherwise. -/
theorem validation_match_trichotomy
    (wb : Workbook) (mapping : String → Option MappingEntry) (fileName : String)
    (now : DateJS) :
    (∀ v ∈ (convertData wb mapping fileName).validation,
        (v.matchResult = "일치" ↔ v.extractedSum = v.originalStoreSum ∧ 0 < v.originalStoreSum)
      ∧ (v.matchResult = "원본 데이터 없음" ↔ ¬ 0 < v.originalStoreSum)
      ∧ ((0 < v.originalStoreSum ∧ v.extractedSum ≠ v.originalStoreSum) ↔
          v.matchResult = mismatchMsg (v.extractedSum - v.originalStoreSum)))
  ∧ (∀ v ∈ (convertDataJS wb mapping fileName now).validation,
        (v.matchResult = "일치" ↔ v.extractedSum = v.originalBox ∧ 0 < v.originalBox)
      ∧ (v.matchResult = "원본 데이터 없음" ↔ ¬ 0 < v.originalBox)
      ∧ ((0 < v.originalBox ∧ v.extractedSum ≠ v.originalBox) ↔
          v.matchResult = mismatchMsg (v.extractedSum - v.originalBox))) := by
  constructor
  · intro v hv
    have hv2 : v ∈ (dayDates (extractDateFromFileName0 fileName)).map
        (buildValidation0 (allRecords0 wb mapping (extractDateFromFileName0 fileName))
          (getDaySheetTotals0 wb (dayDates (extractDateFromFileName0 fileName)))) := hv
    obtain ⟨p, hp, rfl⟩ := List.mem_map.mp hv2
    exact verdictIff _ _
  · intro v hv
    have hv2 : v ∈ (dayDates (extractDateFromFileName1 fileName now)).filterMap
        (fun p => if wb.SheetNames.contains p.1 then
          some (buildValidation1
            (allRecords1 wb mapping (extractDateFromFileName1 fileName now))
            (sheetOf wb p.1) p)
        else none) := hv
    obtain ⟨p, hp, hsome⟩ := List.mem_filterMap.mp hv2
    by_cases hc : wb.SheetNames.contains p.1
    · rw [if_pos hc] at hsome
      obtain rfl := Option.some.inj hsome
      exact verdictIff _ _
    · rw [if_neg hc] at hsome
      exact absurd hsome (by simp)

/-- C2 witness: a concrete run has a validation row whose match result is
the no-original-data string, in line with its non-positive original sum. -/
theorem validation_match_witness :
    (convertData emptyWb noMapping "f").validation =
      [{ date := "2026-01-12", dayName := "월", extractedSum := 0, originalTotal := 0,
         originalStoreSum := 0, matchResult := "원본 데이터 없음" },
       { date := "2026-01-13", dayName := "화", extractedSum := 0, originalTotal := 0,
         originalStoreSum := 0, matchResult := "원본 데이터 없음" },
       { date := "2026-01-14", dayName := "수", extractedSum := 0, originalTotal := 0,
         originalStoreSum := 0, matchResult := "원본 데이터 없음" },
       { date := "2026-01-15", dayName := "목", extractedSum := 0, originalTotal := 0,
         originalStoreSum := 0, matchResult := "원본 데이터 없음" },
       { date := "2026-01-16", dayName := "금", extractedSum := 0, originalTotal := 0,
         originalStoreSum := 0, matchResult := "원본 데이터 없음" }]
  ∧ (({ date := "2026-01-12", dayName := "월", extractedSum := 0, originalTotal := 0,
        originalStoreSum := 0, matchResult := "원본 데이터 없음" } : ValRow0).matchResult =
          "원본 데이터 없음"
      ↔ ¬ (0 : Int) < 0) := by
  have hl : (convertData emptyWb noMapping "f").validation =
      [{ date := "2026-01-12", dayName := "월", extractedSum := 0, originalTotal := 0,
         originalStoreSum := 0, matchResult := "원본 데이터 없음" },
       { date := "2026-01-13", dayName := "화", extractedSum := 0, originalTotal := 0,
         originalStoreSum := 0, matchResult := "원본 데이터 없음" },
       { date := "2026-01-14", dayName := "수", extractedSum := 0, originalTotal := 0,
         originalStoreSum := 0, matchResult := "원본 데이터 없음" },
       { date := "2026-01-15", dayName := "목", extractedSum := 0, originalTotal := 0,
         originalStoreSum := 0, matchResult := "원본 데이터 없음" },
       { date := "2026-01-16", dayName := "금", extractedSum := 0, originalTotal := 0,
         originalStoreSum := 0, matchResult := "원본 데이터 없음" }] := by decide
  refine ⟨hl, ?_⟩
  exact ((validation_match_trichotomy emptyWb noMapping "f" 0).1 _
    (by rw [hl]; exact List.mem_cons_self _ _)).2.1

/-- C3: in both variants, every validation row's extracted sum equals
the sum of boxQty over exactly the dataset records whose date equals the
row's date — each matching record contributes once, and records with a
different date contribute nothing. -/
theorem extractedSum_counts_each_matching_record_once
    (wb : Workbook) (mapping : String → Option MappingEntry) (fileName : String)
    (now : DateJS) :
    (∀ v ∈ (convertData wb mapping fileName).validation,
      v.extractedSum = ((convertData wb mapping fileName).data.map
        fun r => if r.date == v.date then r.boxQty else 0).sum)
  ∧ (∀ v ∈ (convertDataJS wb mapping fileName now).validation,
      v.extractedSum = ((convertDataJS wb mapping fileName now).data.map
        fun r => if r.date == v.date then r.boxQty else 0).sum) := by
  constructor
  · intro v hv
    have hv2 : v ∈ (dayDates (extractDateFromFileName0 fileName)).map
        (buildValidation0 (allRecords0 wb mapping (extractDateFromFileName0 fileName))
          (getDaySheetTotals0 wb (dayDates (extractDateFromFileName0 fileName)))) := hv
    obtain ⟨p, hp, rfl⟩ := List.mem_map.mp hv2
    exact filter_foldl_sum (fun r => r.boxQty) (fun r => r.date == formatDate p.2)
      (allRecords0 wb mapping (extractDateFromFileName0 fileName))
  · intro v hv
    have hv2 : v ∈ (dayDates (extractDateFromFileName1 fileName now)).filterMap
        (fun p => if wb.SheetNames.contains p.1 then
          some (buildValidation1
            (allRecords1 wb mapping (extractDateFromFileName1 fileName now))
            (sheetOf wb p.1) p)
        else none) := hv
    obtain ⟨p, hp, hsome⟩ := List.mem_filterMap.mp hv2
    by_cases hc : wb.SheetNames.contains p.1
    · rw [if_pos hc] at hsome
      obtain rfl := Option.some.inj hsome
      exact filter_foldl_sum (fun r => r.boxQty) (fun r => r.date == formatDate p.2)
        (allRecords1 wb mapping (extractDateFromFileName1 fileName now))
    · rw [if_neg hc] at hsome
      exact absurd hsome (by simp)

/-- C3 witness: on a concrete run whose Monday block yields one record
of box quantity -3, the Monday validation row's extracted sum is -3 and
equals the date-filtered sum over the dataset. -/
theorem extractedSum_witness :
    (convertData negQtyWb noMapping "f").validation.head? = some monNegRow
  ∧ monNegRow.extractedSum =
      (((convertData negQtyWb noMapping "f").data.map
        fun r => if r.date == monNegRow.date then r.boxQty else 0).sum) := by
  have hl : (convertData negQtyWb noMapping "f").validation.head? = some monNegRow := by
    decide
  refine ⟨hl, ?_⟩
  have hmem : monNegRow ∈ (convertData negQtyWb noMapping "f").validation := by
    rcases hh : (convertData negQtyWb noMapping "f").validation with _ | ⟨a, t⟩
    · rw [hh] at hl; exact absurd hl (by simp)
    · rw [hh] at hl
      simp only [List.head?_cons, Option.some.injEq] at hl
      rw [hl]
      exact List.mem_cons_self _ _
  exact (extractedSum_counts_each_matching_record_once negQtyWb noMapping "f" 0).1 _ hmem

lemma jsSetDedup_aux :
    ∀ (l acc : List String), acc.Nodup →
      (l.foldl (fun acc s => if acc.contains s then acc else acc ++ [s]) acc).Nodup
      ∧ ∀ x, x ∈ l.foldl (fun acc s => if acc.contains s then acc else acc ++ [s]) acc ↔
          x ∈ acc ∨ x ∈ l := by
  intro l
  induction l with
  | nil => intro acc h; exact ⟨h, fun x => by simp⟩
  | cons a t ih =>
    intro acc h
    by_cases hc : acc.contains a
    · have hmem : a ∈ acc := List.elem_iff.mp hc
      rw [List.foldl_cons, if_pos hc]
      obtain ⟨h1, h2⟩ := ih acc h
      refine ⟨h1, fun x => ?_⟩
      rw [h2]
      constructor
      · rintro (hx | hx)
        · exact Or.inl hx
        · exact Or.inr (List.mem_cons_of_mem a hx)
      · rintro (hx | hx)
        · exact Or.inl hx
        · rcases List.mem_cons.mp hx with rfl | hx2
          · exact Or.inl hmem
          · exact Or.inr hx2
    · have hmem : a ∉ acc := fun hm => hc (List.elem_iff.mpr hm)
      rw [List.foldl_cons, if_neg hc]
      have hacc2 : (acc ++ [a]).Nodup := by
        simp [List.nodup_append, h, hmem]
      obtain ⟨h1, h2⟩ := ih (acc ++ [a]) hacc2
      refine ⟨h1, fun x => ?_⟩
      rw [h2]
      simp [List.mem_append, List.mem_cons, or_assoc]

lemma jsSetDedup_count (l : List String) (s : String) :
    (jsSetDedup l).count s = if s ∈ l then 1 else 0 := by
  obtain ⟨hn, hm⟩ := jsSetDedup_aux l [] List.nodup_nil
  by_cases h : s ∈ l
  · rw [if_pos h]
    exact List.count_eq_one_of_mem hn ((hm s).mpr (Or.inr h))
  · rw [if_neg h]
    refine List.count_eq_zero.mpr ?_
    intro hx
    rcases (hm s).mp hx with h2 | h2
    · exact absurd h2 (List.not_mem_nil s)
    · exact absurd h2 h

/-- C4: in both variants, for a store name with no mapping entry, every
dataset record of any block carrying that name gets the sentinel code
and the prefixed display name; the deduplicated mapping-failures list
counts the name exactly once when any processed block referenced it and
zero times otherwise; the raw failure list mentions the name exactly
when some present weekday sheet has a block with that name; and an
unmapped block still contributes one dataset row per extracted product
line, so the output stays complete. -/
theorem mapping_failure_handling
    (wb : Workbook) (mapping : String → Option MappingEntry) (fileName : String)
    (now : DateJS) (s : String) (hs : mapping s = none) :
    (∀ (dateStr : String) (sheet : Sheet) (b : Block0), b.storeName = s →
        ∀ rec ∈ blockRecords0 mapping dateStr sheet b,
          rec.code = failureCode ∧ rec.systemName = failureName s)
  ∧ ((convertData wb mapping fileName).mappingFailures.count s =
      if s ∈ (allFailures0 wb mapping (extractDateFromFileName0 fileName)).map (fun f => f.2)
      then 1 else 0)
  ∧ (s ∈ (allFailures0 wb mapping (extractDateFromFileName0 fileName)).map (fun f => f.2) ↔
      ∃ p ∈ dayDates (extractDateFromFileName0 fileName),
        wb.SheetNames.contains p.1 = true
        ∧ ∃ b ∈ findStoreBlocks0 (sheetOf wb p.1), b.storeName = s)
  ∧ (∀ (dateStr : String) (sheet : Sheet) (b : Block0),
      (blockRecords0 mapping dateStr sheet b).length =
        (extractProductsFromBlock0 sheet b).length)
  ∧ (∀ (dateStr : String) (sheet : Sheet) (b : Block1), b.storeName = s →
        ∀ rec ∈ blockRecords1 mapping dateStr sheet b,
          rec.code = failureCode ∧ rec.systemName = failureName s)
  ∧ ((convertDataJS wb mapping fileName now).mappingFailures.count s =
      if s ∈ (allFailures1 wb mapping (extractDateFromFileName1 fileName now)).map
          (fun f => f.2)
      then 1 else 0)
  ∧ (s ∈ (allFailures1 wb mapping (extractDateFromFileName1 fileName now)).map (fun f => f.2) ↔
      ∃ p ∈ dayDates (extractDateFromFileName1 fileName now),
        wb.SheetNames.contains p.1 = true
        ∧ ∃ b ∈ findStoreBlocks1 (sheetOf wb p.1), b.storeName = s)
  ∧ (∀ (dateStr : String) (sheet : Sheet) (b : Block1),
      (blockRecords1 mapping dateStr sheet b).length =
        (extractProductsFromBlock1 sheet b).length) := by
  refine ⟨?_, ?_, ?_, ?_, ?_, ?_, ?_, ?_⟩
  · intro dateStr sheet b hb rec hrec
    subst hb
    simp only [blockRecords0, resolveStore, hs, List.mem_map] at hrec
    obtain ⟨p, hp, rfl⟩ := hrec
    exact ⟨rfl, rfl⟩
  · exact jsSetDedup_count _ s
  · constructor
    · intro hmem
      obtain ⟨pair, hpair, hps⟩ := List.mem_map.mp hmem
      obtain ⟨x, hx, hpx⟩ := List.mem_flatMap.mp hpair
      obtain ⟨p, hp, rfl⟩ := List.mem_map.mp hx
      refine ⟨p, hp, ?_⟩
      by_cases hc : wb.SheetNames.contains p.1
      · refine ⟨hc, ?_⟩
        rw [processDay0, if_pos hc] at hpx
        obtain ⟨b, hb, hbeq⟩ := List.mem_filterMap.mp hpx
        by_cases hbs : (mapping b.storeName).isSome
        · rw [if_pos hbs] at hbeq
          exact absurd hbeq (by simp)
        · rw [if_neg hbs] at hbeq
          obtain rfl := Option.some.inj hbeq
          exact ⟨b, hb, hps⟩
      · rw [processDay0, if_neg hc] at hpx
        exact absurd hpx (List.not_mem_nil pair)
    · rintro ⟨p, hp, hc, b, hb, hbs⟩
      refine List.mem_map.mpr ⟨(p.1, b.storeName), ?_, hbs⟩
      refine List.mem_flatMap.mpr ⟨processDay0 wb mapping p, List.mem_map_of_mem _ hp, ?_⟩
      rw [processDay0, if_pos hc]
      refine List.mem_filterMap.mpr ⟨b, hb, ?_⟩
      rw [hbs, hs]
      simp
  · intro dateStr sheet b
    simp [blockRecords0]
  · intro dateStr sheet b hb rec hrec
    subst hb
    simp only [blockRecords1, resolveStore, hs, List.mem_map] at hrec
    obtain ⟨p, hp, rfl⟩ := hrec
    exact ⟨rfl, rfl⟩
  · exact jsSetDedup_count _ s
  · constructor
    · intro hmem
      obtain ⟨pair, hpair, hps⟩ := List.mem_map.mp hmem
      obtain ⟨x, hx, hpx⟩ := List.mem_flatMap.mp hpair
      obtain ⟨p, hp, rfl⟩ := List.mem_map.mp hx
      refine ⟨p, hp, ?_⟩
      by_cases hc : wb.SheetNames.contains p.1
      · refine ⟨hc, ?_⟩
        rw [processDay1, if_pos hc] at hpx
        obtain ⟨b, hb, hbeq⟩ := List.mem_filterMap.mp hpx
        by_cases hbs : (mapping b.storeName).isSome
        · rw [if_pos hbs] at hbeq
          exact absurd hbeq (by simp)
        · rw [if_neg hbs] at hbeq
          obtain rfl := Option.some.inj hbeq
          exact ⟨b, hb, hps⟩
      · rw [processDay1, if_neg hc] at hpx
        exact absurd hpx (List.not_mem_nil pair)
    · rintro ⟨p, hp, hc, b, hb, hbs⟩
      refine List.mem_map.mpr ⟨(p.1, b.storeName), ?_, hbs⟩
      refine List.mem_flatMap.mpr ⟨processDay1 wb mapping p, List.mem_map_of_mem _ hp, ?_⟩
      rw [processDay1, if_pos hc]
      refine List.mem_filterMap.mpr ⟨b, hb, ?_⟩
      rw [hbs, hs]
      simp
  · intro dateStr sheet b
    simp [blockRecords1]

/-- C4 witness: on a concrete run whose only store name has no mapping
entry, that name is counted exactly once in the failures list of both
variants. -/
theorem mapping_failure_witness :
    noMapping "S" = none
  ∧ (convertData negQtyWb noMapping "f").mappingFailures.count "S" =
      (if "S" ∈ (allFailures0 negQtyWb noMapping (extractDateFromFileName0 "f")).map
          (fun f => f.2) then 1 else 0)
  ∧ (convertDataJS negQtyWb noMapping "f" 0).mappingFailures.count "S" =
      (if "S" ∈ (allFailures1 negQtyWb noMapping (extractDateFromFileName1 "f" 0)).map
          (fun f => f.2) then 1 else 0) :=
  ⟨rfl, (mapping_failure_handling negQtyWb noMapping "f" 0 "S" rfl).2.1,
   (mapping_failure_handling negQtyWb noMapping "f" 0 "S" rfl).2.2.2.2.2.1⟩

/-- C6: a store name is produced exactly when the cell value is a
string that contains the marker character and on which the store-name
pattern (marker, optional whitespace, lazy capture, optional whitespace,
colon, optional digits) matches; the produced name is the trimmed
capture; and the concrete anchor cell containing the marker, the text
Downtown Store and a colon-count suffix yields the name Downtown
Store. -/
theorem storeName_extraction :
    (∀ v : Option Value, (extractStoreName v).isSome ↔
        ∃ s, v = some (.str s) ∧ s.toList.contains '※' = true ∧ (scanStore s.toList).isSome)
  ∧ (∀ s name, extractStoreName (some (.str s)) = some name →
      ∃ cap, scanStore s.toList = some cap ∧ name = trimJS (String.mk cap))
  ∧ extractStoreName (some (.str "※ Downtown Store : 3")) = some "Downtown Store" := by
  refine ⟨?_, ?_, by decide⟩
  · intro v
    constructor
    · intro hsome
      rcases v with _ | v
      · simp [extractStoreName] at hsome
      · rcases v with s | n
        · by_cases he : s = ""
          · subst he; simp [extractStoreName] at hsome
          · by_cases hc : s.toList.contains '※'
            · have hc2 : '※' ∈ s.data := List.elem_iff.mp hc
              rcases hsc : scanStore s.toList with _ | cap
              · have hsc2 : scanStore s.data = none := hsc
                simp [extractStoreName, he, hc2, hsc2] at hsome
              · exact ⟨s, rfl, hc, by rw [hsc]; rfl⟩
            · have hc2 : ¬ '※' ∈ s.data := fun hm => hc (List.elem_iff.mpr hm)
              simp [extractStoreName, he, hc2] at hsome
        · simp [extractStoreName] at hsome
    · rintro ⟨s, rfl, hc, hsc⟩
      obtain ⟨cap, hcap⟩ := Option.isSome_iff_exists.mp hsc
      have he : s ≠ "" := by
        intro h
        subst h
        exact absurd hc (by decide)
      have hc2 : '※' ∈ s.data := List.elem_iff.mp hc
      have hcap2 : scanStore s.data = some cap := hcap
      simp [extractStoreName, he, hc2, hcap2]
  · intro s name h
    by_cases he : s = ""
    · subst he; simp [extractStoreName] at h
    · by_cases hc : s.toList.contains '※'
      · have hc2 : '※' ∈ s.data := List.elem_iff.mp hc
        rcases hsc : scanStore s.toList with _ | cap
        · have hsc2 : scanStore s.data = none := hsc
          simp [extractStoreName, he, hc2, hsc2] at h
        · have hsc2 : scanStore s.data = some cap := hsc
          refine ⟨cap, rfl, ?_⟩
          simp [extractStoreName, he, hc2, hsc2] at h
          exact h.symm
      · have hc2 : ¬ '※' ∈ s.data := fun hm => hc (List.elem_iff.mpr hm)
        simp [extractStoreName, he, hc2] at h

/-- C6 witness: on the concrete anchor cell, the pattern matcher yields
a capture whose trimmed text is the name Downtown Store. -/
theorem storeName_extraction_witness :
    ∃ cap, scanStore "※ Downtown Store : 3".toList = some cap
      ∧ "Downtown Store" = trimJS (String.mk cap) :=
  storeName_extraction.2.1 "※ Downtown Store : 3" "Downtown Store" (by decide)
